import Mathlib

/-!
Shallow embedding of src/submodules/dmc/src/cumc.h (namespace cumc).

The header defines three value types, Vertex<T>, Feature<T> and Triangle<T>,
and the CuMC<Scalar, IndexType> context that owns grid dimensions, derived
counts and device buffers, together with the grid addressing helpers
gA/gX/gY/gZ and resize.

Modelling choices:
- IndexType is modelled by Nat: every index manipulated by the addressing
  helpers is non-negative, and C integer division and modulo agree with Nat
  division and modulo on non-negative operands.
- C integer division and modulo are fallible (undefined when the divisor is
  zero, which can happen here since the dims array is zero-initialized), so
  they are embedded as Option-valued operations cdiv and cmod.
- Device pointers are modelled by their address (a Nat); nullptr is 0.
- The scalar template parameter of Vertex and Feature is kept generic.
-/

namespace CuMCModel

/-- Vertex<T> of cumc.h: three components x, y, z. -/
structure Vertex (T : Type) where
  x : T
  y : T
  z : T

/-- Vertex<T>::operator+ : componentwise sum, returning a new value. -/
def Vertex.add [Add T] (a b : Vertex T) : Vertex T :=
  ⟨a.x + b.x, a.y + b.y, a.z + b.z⟩

/-- Vertex<T>::dot : x*other.x + y*other.y + z*other.z. -/
def Vertex.dot [Add T] [Mul T] (a b : Vertex T) : T :=
  a.x * b.x + a.y * b.y + a.z * b.z

/-- Vertex<T>::operator- : componentwise difference. -/
def Vertex.sub [Sub T] (a b : Vertex T) : Vertex T :=
  ⟨a.x - b.x, a.y - b.y, a.z - b.z⟩

/-- Vertex<T>::operator* (vector argument) : componentwise product. -/
def Vertex.mul [Mul T] (a b : Vertex T) : Vertex T :=
  ⟨a.x * b.x, a.y * b.y, a.z * b.z⟩

/-- Vertex<T>::operator* (scalar argument) : scale each component. -/
def Vertex.smul [Mul T] (a : Vertex T) (s : T) : Vertex T :=
  ⟨a.x * s, a.y * s, a.z * s⟩

/-- Vertex<T>::operator+= : the state of *this after the compound add. -/
def Vertex.addAssign [Add T] (a b : Vertex T) : Vertex T :=
  ⟨a.x + b.x, a.y + b.y, a.z + b.z⟩

/-- Vertex<T>::operator-= : the state of *this after the compound subtract. -/
def Vertex.subAssign [Sub T] (a b : Vertex T) : Vertex T :=
  ⟨a.x - b.x, a.y - b.y, a.z - b.z⟩

/-- Vertex<T>::operator*= : the state of *this after the compound scale. -/
def Vertex.mulAssign [Mul T] (a : Vertex T) (s : T) : Vertex T :=
  ⟨a.x * s, a.y * s, a.z * s⟩

/-- Feature<T> of cumc.h: a fixed-size array T data[SIZE] with SIZE = 8. -/
structure Feature (T : Type) where
  data : Fin 8 → T

/-- Feature<T>::SIZE, the static constant 8. -/
def Feature.SIZE : Nat := 8

/-- Feature<T>::operator+ : loop over i < SIZE setting result.data[i] to
data[i] + other.data[i]. -/
def Feature.add [Add T] (a b : Feature T) : Feature T :=
  ⟨fun i => a.data i + b.data i⟩

/-- Feature<T>::dot : result starts at 0 and the loop over i < SIZE adds
data[i] * other.data[i], in index order. -/
def Feature.dot [Add T] [Mul T] [Zero T] (a b : Feature T) : T :=
  (List.finRange 8).foldl (fun acc i => acc + a.data i * b.data i) 0

/-- Feature<T>::operator- : componentwise difference. -/
def Feature.sub [Sub T] (a b : Feature T) : Feature T :=
  ⟨fun i => a.data i - b.data i⟩

/-- Feature<T>::operator* (vector argument) : componentwise product. -/
def Feature.mul [Mul T] (a b : Feature T) : Feature T :=
  ⟨fun i => a.data i * b.data i⟩

/-- Feature<T>::operator* (scalar argument) : scale each component. -/
def Feature.smul [Mul T] (a : Feature T) (s : T) : Feature T :=
  ⟨fun i => a.data i * s⟩

/-- Feature<T>::operator+= : the state of *this after the compound add. -/
def Feature.addAssign [Add T] (a b : Feature T) : Feature T :=
  ⟨fun i => a.data i + b.data i⟩

/-- Feature<T>::operator-= : the state of *this after the compound subtract. -/
def Feature.subAssign [Sub T] (a b : Feature T) : Feature T :=
  ⟨fun i => a.data i - b.data i⟩

/-- Feature<T>::operator*= : the state of *this after the compound scale. -/
def Feature.mulAssign [Mul T] (a : Feature T) (s : T) : Feature T :=
  ⟨fun i => a.data i * s⟩

/-- Feature<T>::atomicAddWapper : the loop over i < SIZE atomically adds
other.data[i] into data[i]; modelled as the resulting value of *this once
all eight component additions have landed. -/
def Feature.atomicAddWapper [Add T] (a b : Feature T) : Feature T :=
  ⟨fun i => a.data i + b.data i⟩

/-- Triangle<T> of cumc.h: three indices i, j, k. -/
structure Triangle (T : Type) where
  i : T
  j : T
  k : T

/-- C integer division on IndexType values: undefined (none) when the
divisor is zero, otherwise Nat division (which matches C truncating
division on non-negative operands). -/
def cdiv (a b : Nat) : Option Nat :=
  if b = 0 then none else some (a / b)

/-- C integer modulo on IndexType values: undefined (none) when the divisor
is zero, otherwise Nat modulo. -/
def cmod (a b : Nat) : Option Nat :=
  if b = 0 then none else some (a % b)

/-- CuMC<Scalar, IndexType> of cumc.h, with IndexType modelled by Nat,
array field dims[3] flattened into dims0, dims1, dims2, size_t capacities
modelled by Nat, and device pointers modelled by their address (a Nat). -/
structure Ctx where
  dims0 : Nat
  dims1 : Nat
  dims2 : Nat
  n_cells : Nat
  n_used_cells : Nat
  n_verts : Nat
  n_tris : Nat
  allocated_temp_storage_size : Nat
  temp_storage : Nat
  allocated_cell_count : Nat
  first_cell_used : Nat
  allocated_used_cell_count : Nat
  used_cell_index : Nat
  used_to_first_mc_vert : Nat
  used_cell_code : Nat
  used_to_first_mc_tri : Nat
  allocated_vert_count : Nat
  verts_type : Nat
  verts : Nat
  feats : Nat
  allocated_tri_count : Nat
  tris : Nat

/-- Default-initialized CuMC state: the member initializers of cumc.h zero
every count and capacity and null every pointer. -/
def initCtx : Ctx :=
  ⟨0, 0, 0, 0, 0, 0, 0, 0, 0, 0, 0, 0, 0, 0, 0, 0, 0, 0, 0, 0, 0, 0⟩

/-- CuMC::gA : z + dims[2] * (y + dims[1] * x). -/
def Ctx.gA (c : Ctx) (x y z : Nat) : Nat :=
  z + c.dims2 * (y + c.dims1 * x)

/-- CuMC::gX : linearizedCellID / (dims[2] * dims[1]). -/
def Ctx.gX (c : Ctx) (linearizedCellID : Nat) : Option Nat :=
  cdiv linearizedCellID (c.dims2 * c.dims1)

/-- CuMC::gY : (linearizedCellID / dims[2]) % dims[1]. -/
def Ctx.gY (c : Ctx) (linearizedCellID : Nat) : Option Nat :=
  (cdiv linearizedCellID c.dims2).bind (fun q => cmod q c.dims1)

/-- CuMC::gZ : linearizedCellID % dims[2]. -/
def Ctx.gZ (c : Ctx) (linearizedCellID : Nat) : Option Nat :=
  cmod linearizedCellID c.dims2

/-- CuMC::resize : dims[0] = x; dims[1] = y; dims[2] = z;
n_cells = x * y * z. -/
def Ctx.resize (c : Ctx) (x y z : Nat) : Ctx :=
  { c with dims0 := x, dims1 := y, dims2 := z, n_cells := x * y * z }

/-- The linearization formula as written in the spec:
linear(x,y,z) = z + dims[2] * (y + dims[1] * x), as total arithmetic. -/
def spec_linear (d1 d2 x y z : Nat) : Nat :=
  z + d2 * (y + d1 * x)

/-- The first inverse formula as written in the spec:
x = idx / (dims[2] * dims[1]), read as total mathematical division. -/
def spec_invX (d1 d2 idx : Nat) : Nat :=
  idx / (d2 * d1)

/-- The second inverse formula as written in the spec:
y = (idx / dims[2]) % dims[1], read as total mathematical arithmetic. -/
def spec_invY (d1 d2 idx : Nat) : Nat :=
  (idx / d2) % d1

/-- The third inverse formula as written in the spec:
z = idx % dims[2], read as total mathematical arithmetic. -/
def spec_invZ (d2 idx : Nat) : Nat :=
  idx % d2

/-- Modelled from the spec: the eight corner offsets of a cell relative to
its base grid coordinate, indexed in the usual marching cubes order.
The bodies of the CUDA kernels are not under src/, only declared in
cumc.h. -/
def cornerOffsets : List (Nat × Nat × Nat) :=
  [(0, 0, 0), (1, 0, 0), (1, 1, 0), (0, 1, 0),
   (0, 0, 1), (1, 0, 1), (1, 1, 1), (0, 1, 1)]

/-- Modelled from the spec: the bit contributed to the configuration code
by one corner, set when the corner scalar is on the inside of the
isosurface. -/
def insideBit (iso v : ℚ) : Nat :=
  if v < iso then 1 else 0

/-- Modelled from the spec: the 8-bit configuration code of the cell whose
base grid coordinate is (x, y, z), reading the eight corner samples of the
scalar grid through the linear addressing. -/
def cellCode (d1 d2 : Nat) (sdfs : Nat → ℚ) (iso : ℚ) (x y z : Nat) : Nat :=
  ((cornerOffsets.zip (List.range 8)).foldl
    (fun acc p =>
      acc +
        insideBit iso
            (sdfs (spec_linear d1 d2 (x + p.1.1) (y + p.1.2.1) (z + p.1.2.2))) *
          2 ^ p.2)
    0)

/-- Modelled from the spec: the configuration code of the cell with linear
index idx, recovering its coordinates by the inverse decompositions. -/
def cellCodeAt (d1 d2 : Nat) (sdfs : Nat → ℚ) (iso : ℚ) (idx : Nat) : Nat :=
  cellCode d1 d2 sdfs iso (spec_invX d1 d2 idx) (spec_invY d1 d2 idx)
    (spec_invZ d2 idx)

/-- Modelled from the spec: a cell is used iff it is an interior cell and
its configuration code is neither all-outside (0) nor all-inside (255). -/
def cellUsed (d0 d1 d2 : Nat) (sdfs : Nat → ℚ) (iso : ℚ) (idx : Nat) : Bool :=
  let x := spec_invX d1 d2 idx
  let y := spec_invY d1 d2 idx
  let z := spec_invZ d2 idx
  let code := cellCode d1 d2 sdfs iso x y z
  decide (x + 1 < d0) && decide (y + 1 < d1) && decide (z + 1 < d2) &&
    decide (code ≠ 0) && decide (code ≠ 255)

/-- Modelled from the spec: the body of CuMC::forward is not under src/
(cumc.h only declares it). Per the spec, forward establishes the grid
dimensions, classifies every cell, compacts the used cells, and populates
n_used_cells, n_verts and n_tris, where the vertex and triangle totals sum
the per-configuration counts of the fixed external case table, supplied
here as the functions vertsOf and trisOf. -/
def Ctx.forward (vertsOf trisOf : Nat → Nat) (c : Ctx) (sdfs : Nat → ℚ)
    (iso : ℚ) (dimX dimY dimZ : Nat) : Ctx :=
  let c1 := c.resize dimX dimY dimZ
  let used := (List.range c1.n_cells).filter
    (fun idx => cellUsed dimX dimY dimZ sdfs iso idx)
  let codes := used.map (fun idx => cellCodeAt dimY dimZ sdfs iso idx)
  { c1 with
    n_used_cells := used.length
    n_verts := (codes.map vertsOf).sum
    n_tris := (codes.map trisOf).sum }

/-- Context obtained by resizing the default context to dims (2, 3, 4);
used to instantiate the universally quantified theorems below. -/
def ctxA : Ctx :=
  initCtx.resize 2 3 4

/-- Helper: the accumulation loop of Feature::dot computes the finite sum
of the componentwise products. -/
theorem Feature.dot_eq_sum (T : Type) [CommRing T] (a b : Feature T) :
    Feature.dot a b = Finset.univ.sum (fun i => a.data i * b.data i) := by
  have h8 : (List.finRange 8 : List (Fin 8)) = [0, 1, 2, 3, 4, 5, 6, 7] := by
    decide
  simp only [Feature.dot, h8, List.foldl, Fin.sum_univ_eight]
  rw [zero_add]
  exact rfl

/-- C4: resize establishes the grid dimensions and the cell count: after
resize(x, y, z) the state satisfies dims[0] = x, dims[1] = y, dims[2] = z
and n_cells = x * y * z. -/
theorem resize_sets_dims_and_cell_count (c : Ctx) (x y z : Nat) :
    (c.resize x y z).dims0 = x ∧ (c.resize x y z).dims1 = y ∧
      (c.resize x y z).dims2 = z ∧ (c.resize x y z).n_cells = x * y * z :=
  ⟨rfl, rfl, rfl, rfl⟩

/-- C9: resize modifies only dims[0..2] and n_cells: every other field of
the context (counts, capacities and buffer pointers) is unchanged, so
resize itself neither clears nor releases prior classification state. -/
theorem resize_frame (c : Ctx) (x y z : Nat) :
    (c.resize x y z).n_used_cells = c.n_used_cells ∧
      (c.resize x y z).n_verts = c.n_verts ∧
      (c.resize x y z).n_tris = c.n_tris ∧
      (c.resize x y z).allocated_temp_storage_size =
        c.allocated_temp_storage_size ∧
      (c.resize x y z).temp_storage = c.temp_storage ∧
      (c.resize x y z).allocated_cell_count = c.allocated_cell_count ∧
      (c.resize x y z).first_cell_used = c.first_cell_used ∧
      (c.resize x y z).allocated_used_cell_count =
        c.allocated_used_cell_count ∧
      (c.resize x y z).used_cell_index = c.used_cell_index ∧
      (c.resize x y z).used_to_first_mc_vert = c.used_to_first_mc_vert ∧
      (c.resize x y z).used_cell_code = c.used_cell_code ∧
      (c.resize x y z).used_to_first_mc_tri = c.used_to_first_mc_tri ∧
      (c.resize x y z).allocated_vert_count = c.allocated_vert_count ∧
      (c.resize x y z).verts_type = c.verts_type ∧
      (c.resize x y z).verts = c.verts ∧
      (c.resize x y z).feats = c.feats ∧
      (c.resize x y z).allocated_tri_count = c.allocated_tri_count ∧
      (c.resize x y z).tris = c.tris :=
  ⟨rfl, rfl, rfl, rfl, rfl, rfl, rfl, rfl, rfl, rfl, rfl, rfl, rfl, rfl,
    rfl, rfl, rfl, rfl⟩

/-- C6: the Vertex operations are componentwise: sum, difference and
product act on (x, y, z) componentwise, scalar scale multiplies each
component, and dot is x*x + y*y + z*z summed over components. The binary
operations construct a fresh value, leaving both operands untouched, which
the pure functional embedding makes intrinsic. -/
theorem vertex_ops_componentwise (T : Type) [CommRing T] (a b : Vertex T)
    (s : T) :
    (Vertex.add a b).x = a.x + b.x ∧ (Vertex.add a b).y = a.y + b.y ∧
      (Vertex.add a b).z = a.z + b.z ∧
      (Vertex.sub a b).x = a.x - b.x ∧ (Vertex.sub a b).y = a.y - b.y ∧
      (Vertex.sub a b).z = a.z - b.z ∧
      (Vertex.mul a b).x = a.x * b.x ∧ (Vertex.mul a b).y = a.y * b.y ∧
      (Vertex.mul a b).z = a.z * b.z ∧
      (Vertex.smul a s).x = a.x * s ∧ (Vertex.smul a s).y = a.y * s ∧
      (Vertex.smul a s).z = a.z * s ∧
      Vertex.dot a b = a.x * b.x + a.y * b.y + a.z * b.z :=
  ⟨rfl, rfl, rfl, rfl, rfl, rfl, rfl, rfl, rfl, rfl, rfl, rfl, rfl⟩

/-- C7: compound assignment agrees with the binary operations on both
vector types: the value of a after a += b equals a + b computed from the
pre-state, and likewise for -= and *= on Vertex and on Feature. -/
theorem compound_assignment_agrees (T : Type) [CommRing T] (a b : Vertex T)
    (f g : Feature T) (s : T) :
    Vertex.addAssign a b = Vertex.add a b ∧
      Vertex.subAssign a b = Vertex.sub a b ∧
      Vertex.mulAssign a s = Vertex.smul a s ∧
      Feature.addAssign f g = Feature.add f g ∧
      Feature.subAssign f g = Feature.sub f g ∧
      Feature.mulAssign f s = Feature.smul f s :=
  ⟨rfl, rfl, rfl, rfl, rfl, rfl⟩

/-- C5: Feature::SIZE is 8 and every Feature operation acts componentwise
over the eight components: addition, subtraction, componentwise product,
scalar scale and the atomic accumulate act index by index, and dot is the
sum over all eight indices of the componentwise products. -/
theorem feature_ops_componentwise (T : Type) [CommRing T] (a b : Feature T)
    (s : T) (i : Fin 8) :
    Feature.SIZE = 8 ∧
      (Feature.add a b).data i = a.data i + b.data i ∧
      (Feature.sub a b).data i = a.data i - b.data i ∧
      (Feature.mul a b).data i = a.data i * b.data i ∧
      (Feature.smul a s).data i = a.data i * s ∧
      Feature.dot a b = Finset.univ.sum (fun j => a.data j * b.data j) ∧
      (Feature.atomicAddWapper a b).data i = a.data i + b.data i :=
  ⟨rfl, rfl, rfl, rfl, rfl, Feature.dot_eq_sum T a b, rfl⟩

/-- C10: with a commutative scalar type, addition is commutative and dot
is symmetric on both Vertex and Feature. -/
theorem add_comm_and_dot_symm (T : Type) [CommRing T] (a b : Vertex T)
    (f g : Feature T) :
    Vertex.add a b = Vertex.add b a ∧ Vertex.dot a b = Vertex.dot b a ∧
      Feature.add f g = Feature.add g f ∧
      Feature.dot f g = Feature.dot g f := by
  refine ⟨?_, ?_, ?_, ?_⟩
  · simp only [Vertex.add, Vertex.mk.injEq]
    exact ⟨add_comm _ _, add_comm _ _, add_comm _ _⟩
  · simp only [Vertex.dot]
    ring
  · simp only [Feature.add, Feature.mk.injEq]
    funext i
    exact add_comm _ _
  · rw [Feature.dot_eq_sum, Feature.dot_eq_sum]
    exact Finset.sum_congr rfl (fun i _ => mul_comm _ _)

/-- C1: grid addressing is a round-trip bijection: on a context whose dims
are all positive and whose n_cells is the product of the dims (as resize
establishes), gX, gY and gZ invert gA on every in-bounds coordinate
triple, and gA rebuilds every linear index below n_cells from its three
decompositions. -/
theorem grid_addressing_round_trip (c : Ctx) (x y z idx : Nat)
    (h0 : 0 < c.dims0) (h1 : 0 < c.dims1) (h2 : 0 < c.dims2)
    (hn : c.n_cells = c.dims0 * c.dims1 * c.dims2)
    (hx : x < c.dims0) (hy : y < c.dims1) (hz : z < c.dims2)
    (hidx : idx < c.n_cells) :
    c.gX (c.gA x y z) = some x ∧ c.gY (c.gA x y z) = some y ∧
      c.gZ (c.gA x y z) = some z ∧
      ∃ xv yv zv, c.gX idx = some xv ∧ c.gY idx = some yv ∧
        c.gZ idx = some zv ∧ c.gA xv yv zv = idx := by
  have hd1 : c.dims1 ≠ 0 := h1.ne'
  have hd2 : c.dims2 ≠ 0 := h2.ne'
  have hprod : c.dims2 * c.dims1 ≠ 0 := mul_ne_zero hd2 hd1
  have hprodpos : 0 < c.dims2 * c.dims1 := Nat.mul_pos h2 h1
  have hlt : z + c.dims2 * y < c.dims2 * c.dims1 := by
    calc z + c.dims2 * y < c.dims2 + c.dims2 * y := Nat.add_lt_add_right hz _
      _ = c.dims2 * (y + 1) := by ring
      _ ≤ c.dims2 * c.dims1 := Nat.mul_le_mul_left _ (Nat.succ_le_of_lt hy)
  have hA : c.gA x y z = (z + c.dims2 * y) + c.dims2 * c.dims1 * x := by
    simp only [Ctx.gA]; ring
  refine ⟨?_, ?_, ?_, idx / (c.dims2 * c.dims1), (idx / c.dims2) % c.dims1,
    idx % c.dims2, ?_, ?_, ?_, ?_⟩
  · simp only [Ctx.gX, cdiv, hA, if_neg hprod]
    rw [Nat.add_mul_div_left _ _ hprodpos, Nat.div_eq_of_lt hlt, zero_add]
  · simp only [Ctx.gY, cdiv, cmod, if_neg hd2, Option.bind_some, Ctx.gA,
      Option.some_bind]
    rw [Nat.add_mul_div_left _ _ h2, Nat.div_eq_of_lt hz, zero_add,
      if_neg hd1, Nat.add_mul_mod_self_left, Nat.mod_eq_of_lt hy]
  · simp only [Ctx.gZ, cmod, Ctx.gA, if_neg hd2]
    rw [Nat.add_mul_mod_self_left, Nat.mod_eq_of_lt hz]
  · simp only [Ctx.gX, cdiv, if_neg hprod]
  · simp only [Ctx.gY, cdiv, cmod, if_neg hd2, if_neg hd1, Option.some_bind]
  · simp only [Ctx.gZ, cmod, if_neg hd2]
  · simp only [Ctx.gA]
    rw [← Nat.div_div_eq_div_mul, Nat.mod_add_div, Nat.mod_add_div]

/-- Witness for C1: the round trip evaluated on the context with dims
(2, 3, 4), the coordinate triple (1, 2, 3) and the linear index 17. -/
theorem grid_addressing_round_trip_witness :
    ctxA.gX (ctxA.gA 1 2 3) = some 1 ∧ ctxA.gY (ctxA.gA 1 2 3) = some 2 ∧
      ctxA.gZ (ctxA.gA 1 2 3) = some 3 ∧
      ∃ xv yv zv, ctxA.gX 17 = some xv ∧ ctxA.gY 17 = some yv ∧
        ctxA.gZ 17 = some zv ∧ ctxA.gA xv yv zv = 17 :=
  grid_addressing_round_trip ctxA 1 2 3 17 (by decide) (by decide)
    (by decide) (by decide) (by decide) (by decide) (by decide) (by decide)

/-- Counterexample for C2: on the default-initialized context (dims all
zero, as before any resize), gZ fails (the modulo divides by zero), so it
does not equal the total mathematical formula idx % dims[2]. -/
theorem linearization_formulas_counterexample :
    ¬ (initCtx.gZ 0 = some (spec_invZ initCtx.dims2 0)) := by
  decide

/-- C2 as amended: on every context whose dims[1] and dims[2] are nonzero,
gA computes the spec linearization formula for all arguments, and gX, gY,
gZ compute exactly the three spec inverse formulas. -/
theorem linearization_matches_spec_formulas (c : Ctx) (x y z idx : Nat)
    (h1 : c.dims1 ≠ 0) (h2 : c.dims2 ≠ 0) :
    c.gA x y z = spec_linear c.dims1 c.dims2 x y z ∧
      c.gX idx = some (spec_invX c.dims1 c.dims2 idx) ∧
      c.gY idx = some (spec_invY c.dims1 c.dims2 idx) ∧
      c.gZ idx = some (spec_invZ c.dims2 idx) := by
  have hprod : c.dims2 * c.dims1 ≠ 0 := mul_ne_zero h2 h1
  refine ⟨rfl, ?_, ?_, ?_⟩
  · simp [Ctx.gX, cdiv, hprod, spec_invX]
  · simp [Ctx.gY, cdiv, cmod, h1, h2, spec_invY]
  · simp [Ctx.gZ, cmod, h2, spec_invZ]

/-- Witness for the amended C2: the formulas evaluated on the context with
dims (2, 3, 4), the coordinate triple (1, 2, 3) and the linear index 17. -/
theorem linearization_matches_spec_formulas_witness :
    ctxA.gA 1 2 3 = spec_linear ctxA.dims1 ctxA.dims2 1 2 3 ∧
      ctxA.gX 17 = some (spec_invX ctxA.dims1 ctxA.dims2 17) ∧
      ctxA.gY 17 = some (spec_invY ctxA.dims1 ctxA.dims2 17) ∧
      ctxA.gZ 17 = some (spec_invZ ctxA.dims2 17) :=
  linearization_matches_spec_formulas ctxA 1 2 3 17 (by decide) (by decide)

/-- Counterexample for C3: on the default-initialized context, before any
resize, dims are all zero and all three inverse addressing operations fail
by dividing by zero. -/
theorem grid_addressing_failure_counterexample :
    initCtx.gX 0 = none ∧ initCtx.gY 0 = none ∧ initCtx.gZ 0 = none := by
  decide

/-- C3 as amended: on every context whose dims[1] and dims[2] are
positive, gX, gY and gZ never fail: none of the divisions or modulo
operations divides by zero, on any linearized cell id. -/
theorem grid_addressing_inverses_no_failure (c : Ctx) (idx : Nat)
    (h1 : 0 < c.dims1) (h2 : 0 < c.dims2) :
    (c.gX idx).isSome ∧ (c.gY idx).isSome ∧ (c.gZ idx).isSome := by
  have hd1 : c.dims1 ≠ 0 := h1.ne'
  have hd2 : c.dims2 ≠ 0 := h2.ne'
  have hprod : c.dims2 * c.dims1 ≠ 0 := mul_ne_zero hd2 hd1
  exact ⟨by simp [Ctx.gX, cdiv, hprod],
    by simp [Ctx.gY, cdiv, cmod, hd1, hd2],
    by simp [Ctx.gZ, cmod, hd2]⟩

/-- Witness for the amended C3: the three inverses succeed on the context
with dims (2, 3, 4) at the linear index 23. -/
theorem grid_addressing_inverses_no_failure_witness :
    (ctxA.gX 23).isSome ∧ (ctxA.gY 23).isSome ∧ (ctxA.gZ 23).isSome :=
  grid_addressing_inverses_no_failure ctxA 23 (by decide) (by decide)

/-- C8: the derived count invariant 0 ≤ n_used_cells ≤ n_cells holds in
the default-initialized state (both counts zero) and is re-established by
every forward call, whatever the inputs: forward counts the used cells
among the n_cells cells of the resized grid. -/
theorem forward_used_cells_bound (vertsOf trisOf : Nat → Nat) (c : Ctx)
    (sdfs : Nat → ℚ) (iso : ℚ) (dimX dimY dimZ : Nat) :
    (initCtx.n_used_cells = 0 ∧ initCtx.n_cells = 0 ∧
      initCtx.n_used_cells ≤ initCtx.n_cells) ∧
      0 ≤ (Ctx.forward vertsOf trisOf c sdfs iso dimX dimY dimZ).n_used_cells ∧
      (Ctx.forward vertsOf trisOf c sdfs iso dimX dimY dimZ).n_used_cells ≤
        (Ctx.forward vertsOf trisOf c sdfs iso dimX dimY dimZ).n_cells := by
  refine ⟨⟨rfl, rfl, Nat.le_refl 0⟩, Nat.zero_le _, ?_⟩
  simp only [Ctx.forward, Ctx.resize]
  exact le_trans (List.length_filter_le _ _)
    (le_of_eq (List.length_range _))

end CuMCModel
